import Mathlib

/-!
Verification of the voucher-selection core of `main.go`.

The program evaluates a list of vouchers against an order amount:
`calculateDiscount` scores a single voucher (or rejects it), and
`findBestVoucher` fans the evaluations out to a bounded worker pool,
collects the successful `(voucher, discount)` pairs over a channel, and
reduces them to the pair with the greatest discount, returning an error
when the running maximum is still zero at the end.

The embedding below is sequential: the worker pool and the channel only
affect the order in which results reach the reducer, so the reducer is
modelled as a fold over an arbitrary delivery list, `evalResults` gives
the canonical delivery order (source list order), and permutation of the
delivery list stands in for scheduling nondeterminism.  Go `float64`
values are modelled as rationals (`ℚ`), `sql.NullFloat64`/`NullInt64` as
`Option`, and `math.Floor` as `Int.floor`; Go errors are the `String`
messages the source builds with `errors.New`.
-/

namespace VoucherSelect

/-- The `Voucher` struct of `main.go`: an id, a code, a minimum order
amount, and the nullable discount fields (flat amount, percentage,
maximum discount cap). -/
structure Voucher where
  Id : Int
  Code : String
  MinOrderAmount : ℚ
  DiscountAmount : Option ℚ
  DiscountPercentage : Option Int
  MaxDiscountAmount : Option ℚ
deriving DecidableEq, Repr

/-- The zero value of the `Voucher` struct, which `findBestVoucher`'s
`bestVoucher` variable starts at (and returns inside the error case). -/
def voucherZero : Voucher :=
  { Id := 0, Code := "", MinOrderAmount := 0, DiscountAmount := none,
    DiscountPercentage := none, MaxDiscountAmount := none }

/-- `calculateDiscount` of `main.go`: reject the voucher when the order
amount is below its minimum; otherwise take the flat amount when set,
else the percentage of the order amount clamped to the cap when the cap
is set and exceeded, else reject as misconfigured; finally floor the
discount. -/
def calculateDiscount (v : Voucher) (orderAmount : ℚ) : Except String ℚ :=
  if orderAmount < v.MinOrderAmount then
    Except.error "order amount does not meet minimum requirement"
  else
    match v.DiscountAmount with
    | some a => Except.ok ((⌊a⌋ : ℤ) : ℚ)
    | none =>
      match v.DiscountPercentage with
      | some p =>
        let d : ℚ := orderAmount * (p : ℚ) / 100
        let capped : ℚ :=
          match v.MaxDiscountAmount with
          | some c => if d > c then c else d
          | none => d
        Except.ok ((⌊capped⌋ : ℤ) : ℚ)
      | none => Except.error "invalid voucher discount configuration"

/-- A result delivered on `resultChan`: a voucher paired with its
computed discount. -/
abbrev ScoredResult := Voucher × ℚ

/-- One pass of the reduction loop body of `findBestVoucher`: replace
the running best exactly when the delivered discount is strictly
greater. -/
def reduceStep (acc : ScoredResult) (r : ScoredResult) : ScoredResult :=
  if r.2 > acc.2 then r else acc

/-- The reduction loop of `findBestVoucher` over a delivery list,
starting from the zero voucher and a running maximum of `0`. -/
def reduceResults (l : List ScoredResult) : ScoredResult :=
  l.foldl reduceStep (voucherZero, 0)

/-- The successful results produced by the workers, in source-list
order (one canonical delivery order; the channel may deliver any
permutation of it).  Failed evaluations are logged and skipped. -/
def evalResults (vouchers : List Voucher) (orderAmount : ℚ) : List ScoredResult :=
  vouchers.filterMap fun v =>
    match calculateDiscount v orderAmount with
    | Except.ok d => some (v, d)
    | Except.error _ => none

/-- The tail of `findBestVoucher` applied to an explicit delivery list:
reduce, then fail when the running maximum is still `0`. -/
def findBestWith (l : List ScoredResult) : Except String ScoredResult :=
  if (reduceResults l).2 = 0 then Except.error "no applicable voucher found"
  else Except.ok (reduceResults l)

/-- `findBestVoucher` of `main.go` (with the channel delivering in
source-list order): evaluate every voucher, keep the successes, reduce
to the best, error when the maximum stayed `0`. -/
def findBestVoucher (vouchers : List Voucher) (orderAmount : ℚ) :
    Except String ScoredResult :=
  findBestWith (evalResults vouchers orderAmount)

instance {ε α : Type} [DecidableEq ε] [DecidableEq α] : DecidableEq (Except ε α) :=
  fun a b =>
    match a, b with
    | Except.ok x, Except.ok y =>
      if h : x = y then isTrue (by rw [h]) else isFalse (by simp [h])
    | Except.error x, Except.error y =>
      if h : x = y then isTrue (by rw [h]) else isFalse (by simp [h])
    | Except.ok _, Except.error _ => isFalse (by simp)
    | Except.error _, Except.ok _ => isFalse (by simp)

/-- Scenario A's flat voucher: minimum `100`, flat discount `50`. -/
def flat50 : Voucher :=
  { Id := 1, Code := "a", MinOrderAmount := 100, DiscountAmount := some 50,
    DiscountPercentage := none, MaxDiscountAmount := none }

/-- Scenario A's percentage voucher: minimum `100`, `20` percent capped
at `90`. -/
def pct20cap90 : Voucher :=
  { Id := 2, Code := "b", MinOrderAmount := 100, DiscountAmount := none,
    DiscountPercentage := some 20, MaxDiscountAmount := some 90 }

/-- Scenario C's voucher: no minimum, `15` percent, no cap. -/
def pct15 : Voucher :=
  { Id := 3, Code := "c", MinOrderAmount := 0, DiscountAmount := none,
    DiscountPercentage := some 15, MaxDiscountAmount := none }

/-! ### Reducer lemmas -/

/-- The running maximum never decreases across the reduction loop. -/
lemma foldl_reduceStep_le (l : List ScoredResult) (acc : ScoredResult) :
    acc.2 ≤ (l.foldl reduceStep acc).2 := by
  induction l generalizing acc with
  | nil => exact le_refl _
  | cons s t ih =>
    simp only [List.foldl_cons]
    refine le_trans ?_ (ih (reduceStep acc s))
    unfold reduceStep
    split
    · exact le_of_lt (by assumption)
    · exact le_refl _

/-- Every delivered score is bounded by the final running maximum. -/
lemma mem_le_foldl_reduceStep (l : List ScoredResult) (acc : ScoredResult)
    (r : ScoredResult) (h : r ∈ l) : r.2 ≤ (l.foldl reduceStep acc).2 := by
  induction l generalizing acc with
  | nil => cases h
  | cons s t ih =>
    simp only [List.foldl_cons]
    rcases List.mem_cons.mp h with rfl | hm
    · refine le_trans ?_ (foldl_reduceStep_le t (reduceStep acc r))
      unfold reduceStep
      split
      · exact le_refl _
      · exact le_of_not_lt (by assumption)
    · exact ih (reduceStep acc s) hm

/-- When no delivered score beats the accumulator, the loop keeps it. -/
lemma foldl_reduceStep_const (l : List ScoredResult) (acc : ScoredResult)
    (h : ∀ r ∈ l, r.2 ≤ acc.2) : l.foldl reduceStep acc = acc := by
  induction l with
  | nil => rfl
  | cons s t ih =>
    have hs : reduceStep acc s = acc := by
      unfold reduceStep
      rw [if_neg (not_lt.mpr (h s (List.mem_cons_self s t)))]
    simp only [List.foldl_cons, hs]
    exact ih fun r hr => h r (List.mem_cons_of_mem s hr)

/-- When some delivered score beats the accumulator, the loop ends on
the first delivered result carrying the final (maximal) score. -/
lemma find_foldl_reduceStep (l : List ScoredResult) :
    ∀ acc : ScoredResult, (∃ r ∈ l, acc.2 < r.2) →
      List.find? (fun r => decide (r.2 = (l.foldl reduceStep acc).2)) l =
        some (l.foldl reduceStep acc) := by
  induction l with
  | nil =>
    intro acc h
    rcases h with ⟨r, hr, _⟩
    cases hr
  | cons s t ih =>
    intro acc h
    simp only [List.foldl_cons]
    by_cases hlt : acc.2 < s.2
    · have hstep : reduceStep acc s = s := by
        unfold reduceStep
        rw [if_pos hlt]
      simp only [hstep]
      by_cases ht : ∃ r ∈ t, s.2 < r.2
      · have hMgt : s.2 < (t.foldl reduceStep s).2 := by
          rcases ht with ⟨r, hrmem, hrlt⟩
          exact lt_of_lt_of_le hrlt (mem_le_foldl_reduceStep t s r hrmem)
        have hneg : ¬ (fun r : ScoredResult =>
            decide (r.2 = (t.foldl reduceStep s).2)) s = true := by
          simp only [decide_eq_true_eq]
          exact ne_of_lt hMgt
        have hskip : List.find? (fun r : ScoredResult =>
            decide (r.2 = (t.foldl reduceStep s).2)) (s :: t) =
            List.find? (fun r : ScoredResult =>
              decide (r.2 = (t.foldl reduceStep s).2)) t :=
          List.find?_cons_of_neg _ hneg
        rw [hskip]
        exact ih s ht
      · push_neg at ht
        rw [foldl_reduceStep_const t s ht]
        have hpos : (fun r : ScoredResult => decide (r.2 = s.2)) s = true := by
          simp
        exact List.find?_cons_of_pos _ hpos
    · have hstep : reduceStep acc s = acc := by
        unfold reduceStep
        rw [if_neg hlt]
      simp only [hstep]
      have hwit : ∃ r ∈ t, acc.2 < r.2 := by
        rcases h with ⟨r, hrmem, hrlt⟩
        rcases List.mem_cons.mp hrmem with rfl | hm
        · exact absurd hrlt hlt
        · exact ⟨r, hm, hrlt⟩
      have hMgt : acc.2 < (t.foldl reduceStep acc).2 := by
        rcases hwit with ⟨r, hrmem, hrlt⟩
        exact lt_of_lt_of_le hrlt (mem_le_foldl_reduceStep t acc r hrmem)
      have hneg : ¬ (fun r : ScoredResult =>
          decide (r.2 = (t.foldl reduceStep acc).2)) s = true := by
        simp only [decide_eq_true_eq]
        exact ne_of_lt (lt_of_le_of_lt (le_of_not_lt hlt) hMgt)
      have hskip : List.find? (fun r : ScoredResult =>
          decide (r.2 = (t.foldl reduceStep acc).2)) (s :: t) =
          List.find? (fun r : ScoredResult =>
            decide (r.2 = (t.foldl reduceStep acc).2)) t :=
        List.find?_cons_of_neg _ hneg
      rw [hskip]
      exact ih acc hwit

/-- The final running maximum starts at `0` and never drops below it. -/
lemma reduceResults_snd_nonneg (l : List ScoredResult) :
    0 ≤ (reduceResults l).2 :=
  foldl_reduceStep_le l (voucherZero, 0)

/-- The running maximum ends at `0` exactly when no delivered score is
positive. -/
lemma reduceResults_snd_eq_zero_iff (l : List ScoredResult) :
    (reduceResults l).2 = 0 ↔ ∀ r ∈ l, r.2 ≤ 0 := by
  constructor
  · intro h r hr
    have hle := mem_le_foldl_reduceStep l (voucherZero, 0) r hr
    unfold reduceResults at h
    rw [h] at hle
    exact hle
  · intro h
    unfold reduceResults
    rw [foldl_reduceStep_const l _ (by intro r hr; exact h r hr)]

/-- The final running maximum is the `max`-fold of the delivered
scores. -/
lemma foldl_reduceStep_snd (l : List ScoredResult) :
    ∀ acc : ScoredResult,
      (l.foldl reduceStep acc).2 = l.foldl (fun m r => max m r.2) acc.2 := by
  induction l with
  | nil => intro acc; rfl
  | cons s t ih =>
    intro acc
    simp only [List.foldl_cons]
    rw [ih]
    congr 1
    unfold reduceStep
    split
    · exact (max_eq_right (le_of_lt (by assumption))).symm
    · exact (max_eq_left (le_of_not_lt (by assumption))).symm

/-- The `max`-fold of the scores is invariant under permutation of the
delivery order. -/
lemma foldl_max_perm {l₁ l₂ : List ScoredResult} (p : l₁.Perm l₂) :
    ∀ m : ℚ, l₁.foldl (fun m r => max m r.2) m =
      l₂.foldl (fun m r => max m r.2) m := by
  induction p with
  | nil => intro m; rfl
  | cons x _ ih =>
    intro m
    simp only [List.foldl_cons]
    exact ih _
  | swap x y l =>
    intro m
    simp only [List.foldl_cons]
    rw [sup_right_comm]
  | trans _ _ ih₁ ih₂ =>
    intro m
    rw [ih₁, ih₂]

/-- Membership in the successful-results list means membership in the
voucher list together with a successful evaluation. -/
lemma mem_evalResults {vs : List Voucher} {amt : ℚ} {r : ScoredResult} :
    r ∈ evalResults vs amt ↔
      r.1 ∈ vs ∧ calculateDiscount r.1 amt = Except.ok r.2 := by
  unfold evalResults
  rw [List.mem_filterMap]
  constructor
  · rintro ⟨v, hv, hf⟩
    cases hcd : calculateDiscount v amt with
    | ok d =>
      rw [hcd] at hf
      simp only [Option.some.injEq] at hf
      rw [← hf]
      exact ⟨hv, hcd⟩
    | error e =>
      rw [hcd] at hf
      cases hf
  · rintro ⟨hmem, hcd⟩
    refine ⟨r.1, hmem, ?_⟩
    rw [hcd]

/-- A voucher with a flat discount of `0` (eligible at any amount). -/
def flat0 : Voucher :=
  { Id := 11, Code := "f0", MinOrderAmount := 0, DiscountAmount := some 0,
    DiscountPercentage := none, MaxDiscountAmount := none }

/-- A voucher giving `1` percent with no minimum and no cap. -/
def pct1 : Voucher :=
  { Id := 12, Code := "p1", MinOrderAmount := 0, DiscountAmount := none,
    DiscountPercentage := some 1, MaxDiscountAmount := none }

/-- A voucher with the non-integer flat discount `49.5`. -/
def flatHalf : Voucher :=
  { Id := 13, Code := "fh", MinOrderAmount := 0, DiscountAmount := some (99/2),
    DiscountPercentage := none, MaxDiscountAmount := none }

/-- A voucher with neither discount field set and minimum `1000`. -/
def malformedMin1000 : Voucher :=
  { Id := 14, Code := "mm", MinOrderAmount := 1000, DiscountAmount := none,
    DiscountPercentage := none, MaxDiscountAmount := none }

/-- A voucher with neither discount field set and no minimum. -/
def malformedZero : Voucher :=
  { Id := 17, Code := "mz", MinOrderAmount := 0, DiscountAmount := none,
    DiscountPercentage := none, MaxDiscountAmount := none }

/-- A voucher with a flat discount of `-5`. -/
def flatNeg5 : Voucher :=
  { Id := 15, Code := "fn5", MinOrderAmount := 0, DiscountAmount := some (-5),
    DiscountPercentage := none, MaxDiscountAmount := none }

/-- A voucher with both the flat amount (`3.5`) and the percentage
(`50`, capped at `1000`) set. -/
def bothHalf : Voucher :=
  { Id := 16, Code := "bt", MinOrderAmount := 0, DiscountAmount := some (7/2),
    DiscountPercentage := some 50, MaxDiscountAmount := some 1000 }

/-! ### Evaluation lemmas -/

/-- An eligible voucher with the flat amount set scores the floor of
that amount; the percentage branch is never reached. -/
lemma calculateDiscount_flat_eq (v : Voucher) (amt a : ℚ)
    (hmin : v.MinOrderAmount ≤ amt) (hA : v.DiscountAmount = some a) :
    calculateDiscount v amt = Except.ok ((⌊a⌋ : ℤ) : ℚ) := by
  unfold calculateDiscount
  rw [if_neg (not_lt.mpr hmin), hA]

example : calculateDiscount pct15 333 = Except.ok 49 := by
  with_unfolding_all decide

example : findBestVoucher [flat50, pct20cap90] 500 =
    Except.ok (pct20cap90, 90) := by
  with_unfolding_all decide

/-! ### Claim theorems -/

/-- C3: for an eligible percentage voucher (minimum met, flat amount
absent, percentage present) the score is the floor of the percentage of
the order amount, clamped to the cap first when a cap is present. -/
theorem calculateDiscount_percentage_formula (v : Voucher) (amt : ℚ) (p : Int)
    (hmin : v.MinOrderAmount ≤ amt) (hA : v.DiscountAmount = none)
    (hP : v.DiscountPercentage = some p) :
    calculateDiscount v amt =
      Except.ok ((⌊(match v.MaxDiscountAmount with
        | some c => min (amt * (p : ℚ) / 100) c
        | none => amt * (p : ℚ) / 100)⌋ : ℤ) : ℚ) := by
  unfold calculateDiscount
  rw [if_neg (not_lt.mpr hmin), hA, hP]
  cases hC : v.MaxDiscountAmount with
  | some c =>
    have hcap : (if amt * (p : ℚ) / 100 > c then c else amt * (p : ℚ) / 100) =
        min (amt * (p : ℚ) / 100) c := by
      rcases le_or_lt (amt * (p : ℚ) / 100) c with hle | hgt
      · rw [if_neg (not_lt.mpr hle), min_eq_left hle]
      · rw [if_pos hgt, min_eq_right (le_of_lt hgt)]
    simp only [hcap]
  | none => rfl

/-- C3 witness, Scenario C: `15` percent of `333` with no cap floors to
`49`. -/
theorem calculateDiscount_percentage_formula_wit :
    calculateDiscount pct15 333 = Except.ok 49 :=
  (calculateDiscount_percentage_formula pct15 333 15 (by norm_num [pct15])
    rfl rfl).trans (by with_unfolding_all decide)

/-- C4 counterexample: the flat amount `49.5` is floored to `49`, so
`calculateDiscount` does not return the fixed amount unchanged. -/
theorem calculateDiscount_flat_floored_cex :
    calculateDiscount flatHalf 100 = Except.ok 49 ∧
    calculateDiscount flatHalf 100 ≠ Except.ok (99/2) := by
  constructor
  · with_unfolding_all decide
  · with_unfolding_all decide

/-- C4 amended: an eligible fixed-amount voucher scores the floor of
its fixed amount (the source floors flat discounts too). -/
theorem calculateDiscount_flat_floor (v : Voucher) (amt a : ℚ)
    (hmin : v.MinOrderAmount ≤ amt) (hA : v.DiscountAmount = some a) :
    calculateDiscount v amt = Except.ok ((⌊a⌋ : ℤ) : ℚ) :=
  calculateDiscount_flat_eq v amt a hmin hA

/-- C4 witness: the flat-`50` voucher at order amount `500` scores
`⌊50⌋`. -/
theorem calculateDiscount_flat_floor_wit :
    calculateDiscount flat50 500 = Except.ok ((⌊(50 : ℚ)⌋ : ℤ) : ℚ) :=
  calculateDiscount_flat_floor flat50 500 50 (by norm_num [flat50]) rfl

/-- C5: `calculateDiscount` fails with the ineligibility error exactly
when the order amount is strictly below the voucher's minimum. -/
theorem calculateDiscount_ineligible_iff (v : Voucher) (amt : ℚ) :
    calculateDiscount v amt =
      Except.error "order amount does not meet minimum requirement" ↔
      amt < v.MinOrderAmount := by
  unfold calculateDiscount
  by_cases h : amt < v.MinOrderAmount
  · rw [if_pos h]
    exact iff_of_true rfl h
  · rw [if_neg h]
    simp only [h, iff_false]
    cases hA : v.DiscountAmount with
    | some a => simp
    | none =>
      cases hP : v.DiscountPercentage with
      | some p => simp
      | none =>
        intro hcontra
        have : "invalid voucher discount configuration" =
            "order amount does not meet minimum requirement" :=
          Except.error.inj hcontra
        exact absurd this (by decide)

/-- C8 counterexample: a successful evaluation can return a negative
score (flat amount `-5`). -/
theorem calculateDiscount_negative_score_cex :
    calculateDiscount flatNeg5 100 = Except.ok (-5) ∧
    ¬ (0 : ℚ) ≤ -5 := by
  constructor
  · with_unfolding_all decide
  · norm_num

/-- C8 amended: when the order amount and every set discount field are
non-negative, a successful evaluation returns a non-negative score. -/
theorem calculateDiscount_nonneg (v : Voucher) (amt s : ℚ)
    (hamt : 0 ≤ amt)
    (hA : ∀ a : ℚ, v.DiscountAmount = some a → 0 ≤ a)
    (hP : ∀ p : Int, v.DiscountPercentage = some p → 0 ≤ p)
    (hC : ∀ c : ℚ, v.MaxDiscountAmount = some c → 0 ≤ c)
    (h : calculateDiscount v amt = Except.ok s) : 0 ≤ s := by
  unfold calculateDiscount at h
  by_cases hmin : amt < v.MinOrderAmount
  · rw [if_pos hmin] at h
    cases h
  · rw [if_neg hmin] at h
    cases hDA : v.DiscountAmount with
    | some a =>
      rw [hDA] at h
      simp only [Except.ok.injEq] at h
      rw [← h]
      exact_mod_cast Int.floor_nonneg.mpr (hA a hDA)
    | none =>
      rw [hDA] at h
      cases hDP : v.DiscountPercentage with
      | none =>
        rw [hDP] at h
        cases h
      | some p =>
        rw [hDP] at h
        have hp : (0 : ℚ) ≤ (p : ℚ) := by exact_mod_cast hP p hDP
        have hd : 0 ≤ amt * (p : ℚ) / 100 :=
          div_nonneg (mul_nonneg hamt hp) (by norm_num)
        cases hMC : v.MaxDiscountAmount with
        | none =>
          rw [hMC] at h
          simp only [Except.ok.injEq] at h
          rw [← h]
          exact_mod_cast Int.floor_nonneg.mpr hd
        | some c =>
          rw [hMC] at h
          simp only [Except.ok.injEq] at h
          rw [← h]
          have hcap : 0 ≤ (if amt * (p : ℚ) / 100 > c then c
              else amt * (p : ℚ) / 100) := by
            split
            · exact hC c hMC
            · exact hd
          exact_mod_cast Int.floor_nonneg.mpr hcap

/-- C8 witness: the flat-`50` voucher at order amount `500` evaluates
successfully to a non-negative score. -/
theorem calculateDiscount_nonneg_wit :
    ∃ s, calculateDiscount flat50 500 = Except.ok s ∧ 0 ≤ s := by
  have h50 : calculateDiscount flat50 500 = Except.ok 50 := by
    with_unfolding_all decide
  refine ⟨50, h50, ?_⟩
  refine calculateDiscount_nonneg flat50 500 50 (by norm_num) ?_ ?_ ?_ h50
  · intro a ha
    injection (show (some (50 : ℚ)) = some a from ha) with hi
    rw [← hi]
    norm_num
  · intro p hp
    cases (show (none : Option Int) = some p from hp)
  · intro c hc
    cases (show (none : Option ℚ) = some c from hc)

/-- C10 counterexample: with both fields set the flat amount still goes
through the final floor, so `3.5` comes back as `3`, not `3.5`. -/
theorem calculateDiscount_both_set_cex :
    calculateDiscount bothHalf 100 = Except.ok 3 ∧
    calculateDiscount bothHalf 100 ≠ Except.ok (7/2) := by
  constructor
  · with_unfolding_all decide
  · with_unfolding_all decide

/-- C10 amended: when both discount fields are set on an eligible
voucher, evaluation succeeds with the floor of the flat amount,
ignoring the percentage and the cap, and is not treated as
malformed. -/
theorem calculateDiscount_both_set_flat (v : Voucher) (amt a : ℚ) (p : Int)
    (hmin : v.MinOrderAmount ≤ amt) (hA : v.DiscountAmount = some a)
    (_hP : v.DiscountPercentage = some p) :
    calculateDiscount v amt = Except.ok ((⌊a⌋ : ℤ) : ℚ) ∧
    calculateDiscount v amt ≠
      Except.error "invalid voucher discount configuration" := by
  have heq := calculateDiscount_flat_eq v amt a hmin hA
  exact ⟨heq, by rw [heq]; exact fun hmix => Except.noConfusion hmix⟩

/-- C10 witness: the both-set voucher at order amount `100` scores
`⌊3.5⌋` and is not rejected as malformed. -/
theorem calculateDiscount_both_set_flat_wit :
    calculateDiscount bothHalf 100 = Except.ok ((⌊(7/2 : ℚ)⌋ : ℤ) : ℚ) ∧
    calculateDiscount bothHalf 100 ≠
      Except.error "invalid voucher discount configuration" :=
  calculateDiscount_both_set_flat bothHalf 100 (7/2) 50
    (by norm_num [bothHalf]) rfl rfl

/-- A singleton delivery with a positive score wins outright. -/
lemma findBestWith_single (v : Voucher) (s : ℚ) (hs : 0 < s) :
    findBestWith [(v, s)] = Except.ok (v, s) := by
  have hred : reduceResults [(v, s)] = (v, s) := by
    unfold reduceResults
    simp only [List.foldl_cons, List.foldl_nil]
    unfold reduceStep
    rw [if_pos (show (voucherZero, (0 : ℚ)).2 < (v, s).2 from hs)]
  unfold findBestWith
  rw [hred, if_neg (show ¬ (v, s).2 = 0 from ne_of_gt hs)]

/-- C1 counterexample: a list with an eligible candidate (flat `0`,
evaluated successfully) on which `findBestVoucher` still returns the
no-voucher error instead of that candidate. -/
theorem findBestVoucher_zero_score_cex :
    calculateDiscount flat0 100 = Except.ok 0 ∧
    findBestVoucher [flat0] 100 =
      Except.error "no applicable voucher found" := by
  constructor <;> with_unfolding_all decide

/-- C1 amended: when some candidate evaluates to a positive score,
`findBestVoucher` returns an eligible candidate whose score is the
maximum over all successfully evaluated candidates. -/
theorem findBestVoucher_attains_max (vs : List Voucher) (amt : ℚ)
    (h : ∃ v ∈ vs, ∃ s, calculateDiscount v amt = Except.ok s ∧ 0 < s) :
    ∃ w m, findBestVoucher vs amt = Except.ok (w, m) ∧ w ∈ vs ∧
      calculateDiscount w amt = Except.ok m ∧
      ∀ v ∈ vs, ∀ s, calculateDiscount v amt = Except.ok s → s ≤ m := by
  rcases h with ⟨v, hv, s, hok, hs⟩
  have hmem : (v, s) ∈ evalResults vs amt := mem_evalResults.mpr ⟨hv, hok⟩
  have hpos : 0 < (reduceResults (evalResults vs amt)).2 :=
    lt_of_lt_of_le hs (mem_le_foldl_reduceStep _ (voucherZero, 0) (v, s) hmem)
  have hfind := find_foldl_reduceStep (evalResults vs amt) (voucherZero, 0)
    ⟨(v, s), hmem, hs⟩
  have hbmem : reduceResults (evalResults vs amt) ∈ evalResults vs amt :=
    List.mem_of_find?_eq_some hfind
  have hbest := mem_evalResults.mp hbmem
  refine ⟨(reduceResults (evalResults vs amt)).1,
    (reduceResults (evalResults vs amt)).2, ?_, hbest.1, hbest.2, ?_⟩
  · unfold findBestVoucher findBestWith
    rw [if_neg (ne_of_gt hpos), Prod.mk.eta]
  · intro u hu t hokt
    exact mem_le_foldl_reduceStep _ (voucherZero, 0) (u, t)
      (mem_evalResults.mpr ⟨hu, hokt⟩)

/-- C1 witness, Scenario A: among the flat-`50` and capped-`20`-percent
vouchers at order amount `500`, the winner attains the maximal score. -/
theorem findBestVoucher_attains_max_wit :
    ∃ w m, findBestVoucher [flat50, pct20cap90] 500 = Except.ok (w, m) ∧
      w ∈ [flat50, pct20cap90] ∧
      calculateDiscount w 500 = Except.ok m ∧
      ∀ v ∈ [flat50, pct20cap90], ∀ s,
        calculateDiscount v 500 = Except.ok s → s ≤ m :=
  findBestVoucher_attains_max [flat50, pct20cap90] 500
    ⟨flat50, List.mem_cons_self _ _, 50, by with_unfolding_all decide,
      by norm_num⟩

/-- C2 counterexample: the `1`-percent voucher at order amount `50`
evaluates successfully (to the floored score `0`), yet
`findBestVoucher` still reports the no-voucher sentinel. -/
theorem findBestVoucher_error_despite_success_cex :
    calculateDiscount pct1 50 = Except.ok 0 ∧
    findBestVoucher [pct1] 50 =
      Except.error "no applicable voucher found" := by
  constructor <;> with_unfolding_all decide

/-- C2 amended: `findBestVoucher` returns the no-voucher sentinel
exactly when no candidate evaluates to a positive score (in particular
when every candidate fails). -/
theorem findBestVoucher_error_iff (vs : List Voucher) (amt : ℚ) :
    findBestVoucher vs amt = Except.error "no applicable voucher found" ↔
      ∀ v ∈ vs, ∀ s, calculateDiscount v amt = Except.ok s → s ≤ 0 := by
  unfold findBestVoucher findBestWith
  constructor
  · intro h v hv s hok
    by_cases hz : (reduceResults (evalResults vs amt)).2 = 0
    · exact (reduceResults_snd_eq_zero_iff _).mp hz (v, s)
        (mem_evalResults.mpr ⟨hv, hok⟩)
    · rw [if_neg hz] at h
      cases h
  · intro h
    have hz : (reduceResults (evalResults vs amt)).2 = 0 :=
      (reduceResults_snd_eq_zero_iff _).mpr fun r hr =>
        h r.1 (mem_evalResults.mp hr).1 r.2 (mem_evalResults.mp hr).2
    rw [if_pos hz]

/-- C6 counterexample: with neither discount field set but the minimum
not met, `calculateDiscount` fails with the ineligibility error, not
the malformed-configuration error. -/
theorem calculateDiscount_malformed_below_min_cex :
    calculateDiscount malformedMin1000 500 =
      Except.error "order amount does not meet minimum requirement" ∧
    calculateDiscount malformedMin1000 500 ≠
      Except.error "invalid voucher discount configuration" := by
  constructor <;> with_unfolding_all decide

/-- C6 amended: a voucher with neither discount field set fails with
the malformed-configuration error once its minimum is met, and mixing
such a voucher with a valid positive-scoring one leaves the valid one
as winner, in either order, without failing. -/
theorem calculateDiscount_malformed_skip :
    (∀ (v : Voucher) (amt : ℚ), v.MinOrderAmount ≤ amt →
      v.DiscountAmount = none → v.DiscountPercentage = none →
      calculateDiscount v amt =
        Except.error "invalid voucher discount configuration") ∧
    (∀ (m v : Voucher) (amt s : ℚ), m.DiscountAmount = none →
      m.DiscountPercentage = none →
      calculateDiscount v amt = Except.ok s → 0 < s →
      findBestVoucher [m, v] amt = Except.ok (v, s) ∧
      findBestVoucher [v, m] amt = Except.ok (v, s)) := by
  have hmal : ∀ (v : Voucher) (amt : ℚ), v.MinOrderAmount ≤ amt →
      v.DiscountAmount = none → v.DiscountPercentage = none →
      calculateDiscount v amt =
        Except.error "invalid voucher discount configuration" := by
    intro v amt hmin hA hP
    unfold calculateDiscount
    rw [if_neg (not_lt.mpr hmin), hA, hP]
  refine ⟨hmal, ?_⟩
  intro m v amt s hA hP hok hs
  have hmerr : ∃ e, calculateDiscount m amt = Except.error e := by
    by_cases hmin : amt < m.MinOrderAmount
    · exact ⟨_, by unfold calculateDiscount; rw [if_pos hmin]⟩
    · exact ⟨_, hmal m amt (not_lt.mp hmin) hA hP⟩
  rcases hmerr with ⟨e, he⟩
  have heval1 : evalResults [m, v] amt = [(v, s)] := by
    unfold evalResults
    simp [List.filterMap_cons, he, hok]
  have heval2 : evalResults [v, m] amt = [(v, s)] := by
    unfold evalResults
    simp [List.filterMap_cons, he, hok]
  constructor
  · unfold findBestVoucher
    rw [heval1]
    exact findBestWith_single v s hs
  · unfold findBestVoucher
    rw [heval2]
    exact findBestWith_single v s hs

/-- C6 witness, Scenario D: the malformed voucher is rejected at
evaluation time and the valid flat-`50` voucher wins the mixed run. -/
theorem calculateDiscount_malformed_skip_wit :
    calculateDiscount malformedZero 500 =
      Except.error "invalid voucher discount configuration" ∧
    findBestVoucher [malformedZero, flat50] 500 = Except.ok (flat50, 50) :=
  ⟨calculateDiscount_malformed_skip.1 malformedZero 500
      (by norm_num [malformedZero]) rfl rfl,
   (calculateDiscount_malformed_skip.2 malformedZero flat50 500 50 rfl rfl
      (by with_unfolding_all decide) (by norm_num)).1⟩

/-- C7 counterexample: on the delivery `[(flat50, 0)]` the maximum
delivered score is `0` and its first occurrence is `(flat50, 0)`, but
the reducer keeps its zero-valued initial state instead. -/
theorem reduceResults_not_first_max_cex :
    List.find? (fun r => decide (r.2 = (reduceResults [(flat50, (0 : ℚ))]).2))
        [(flat50, (0 : ℚ))] = some (flat50, (0 : ℚ)) ∧
    reduceResults [(flat50, (0 : ℚ))] ≠ (flat50, (0 : ℚ)) ∧
    reduceResults [(flat50, (0 : ℚ))] = (voucherZero, 0) := by
  refine ⟨?_, ?_, ?_⟩ <;> with_unfolding_all decide

/-- C7 amended: when some delivered score is positive, the reducer ends
on the first delivered result whose score equals the final running
maximum, and that maximum bounds every delivered score. -/
theorem reduceResults_first_max (l : List ScoredResult)
    (h : ∃ r ∈ l, 0 < r.2) :
    List.find? (fun r => decide (r.2 = (reduceResults l).2)) l =
      some (reduceResults l) ∧
    ∀ r ∈ l, r.2 ≤ (reduceResults l).2 :=
  ⟨find_foldl_reduceStep l (voucherZero, 0) h,
   fun r hr => mem_le_foldl_reduceStep l (voucherZero, 0) r hr⟩

/-- C7 witness: on a two-element delivery with tied score `50` the
reducer keeps the first-seen result, which is the first occurrence of
the maximum. -/
theorem reduceResults_first_max_wit :
    List.find? (fun r => decide (r.2 =
        (reduceResults [(flat50, (50 : ℚ)), (pct20cap90, (50 : ℚ))]).2))
        [(flat50, (50 : ℚ)), (pct20cap90, (50 : ℚ))] =
      some (reduceResults [(flat50, (50 : ℚ)), (pct20cap90, (50 : ℚ))]) ∧
    ∀ r ∈ [(flat50, (50 : ℚ)), (pct20cap90, (50 : ℚ))],
      r.2 ≤ (reduceResults [(flat50, (50 : ℚ)), (pct20cap90, (50 : ℚ))]).2 :=
  reduceResults_first_max _ ⟨(flat50, 50), List.mem_cons_self _ _, by norm_num⟩

/-- C9: the outcome score of the run is independent of the delivery
order: any permutation of the evaluated results (the only effect of the
worker cap and of rerunning) yields the same winning score and the same
error behaviour. -/
theorem findBest_score_perm_invariant (vs : List Voucher) (amt : ℚ)
    (l : List ScoredResult) (h : l.Perm (evalResults vs amt)) :
    (findBestWith l).map Prod.snd = (findBestVoucher vs amt).map Prod.snd := by
  have hsnd : (reduceResults l).2 = (reduceResults (evalResults vs amt)).2 := by
    unfold reduceResults
    rw [foldl_reduceStep_snd, foldl_reduceStep_snd]
    exact foldl_max_perm h _
  unfold findBestVoucher findBestWith
  rw [hsnd]
  by_cases hz : (reduceResults (evalResults vs amt)).2 = 0
  · rw [if_pos hz, if_pos hz]
  · rw [if_neg hz, if_neg hz]
    simp only [Except.map]
    rw [hsnd]

/-- C9 witness: delivering Scenario A's two results in the reversed
order yields the same winning score as the source-order run. -/
theorem findBest_score_perm_invariant_wit :
    (findBestWith [(pct20cap90, (90 : ℚ)), (flat50, (50 : ℚ))]).map Prod.snd =
      (findBestVoucher [flat50, pct20cap90] 500).map Prod.snd :=
  findBest_score_perm_invariant [flat50, pct20cap90] 500
    [(pct20cap90, (90 : ℚ)), (flat50, (50 : ℚ))]
    (by
      have he : evalResults [flat50, pct20cap90] 500 =
          [(flat50, (50 : ℚ)), (pct20cap90, (90 : ℚ))] := by
        with_unfolding_all decide
      rw [he]
      exact List.Perm.swap _ _ _)

end VoucherSelect
